import Mathlib

/-!
Verification of the X-Ray decision-observability pipeline
(TypeScript sources under `src/`) against its natural-language
specification.  Each subsystem the claims touch is shallowly embedded:
JS numbers become `ℚ` (all concrete inputs used below stay exact in
IEEE-754 binary64 as well, so the comparisons evaluated here coincide
with the JavaScript ones), JS arrays become `List`, `Map` becomes an
association list with JS `Map` semantics, and the async methods become
explicit state-passing functions describing one complete execution of
the method body.
-/

namespace AdaptiveSampler

/--
Embedding of `AdaptiveSampler.shouldSample`
(`packages/sdk-core/src/sampler.ts`).  JS numbers are modelled as `ℚ`.
The one semantic gap — JS division by zero yields `Infinity` while `ℚ`
division by zero yields `0` — is unreachable for the inputs considered
here: the divisors `itemsToSample = totalCount - 2` and `totalCount`
are only consulted after the first two guards, which already return
`true` whenever `totalCount ≤ 2` would make them zero (index `0` and
index `totalCount - 1` are the only indices of a 1- or 2-element batch,
and `totalCount ≤ targetSampleSize` catches small batches).
-/
def shouldSample (itemIndex totalCount targetSampleSize : ℚ) : Bool :=
  -- Always sample first and last items
  if itemIndex = 0 ∨ itemIndex = totalCount - 1 then
    true
  -- If total is already small, sample everything
  else if totalCount ≤ targetSampleSize then
    true
  else
    let remainingSlots := targetSampleSize - 2
    let itemsToSample := totalCount - 2
    let ratio := remainingSlots / itemsToSample
    let samplePoint := itemIndex / totalCount
    decide (samplePoint < ratio * (remainingSlots / itemsToSample) * totalCount)

/-- The set of indices selected from a batch of `n` items with target `k`. -/
def sampledSet (n : ℕ) (k : ℚ) : Finset ℕ :=
  (Finset.range n).filter (fun i => shouldSample (i : ℚ) n k)

/--
C1.  The claim asserts `|{i : shouldSample(i, n, k)}| ≤ max (k, 2)` whenever
`n > k`.  The code violates it: its interior test
`i/n < ((k-2)/(n-2))^2 * n` over-selects.  At `n = 10`, `k = 5`
(`n > k`) every one of the 10 indices is selected, which exceeds
`max (5, 2) = 5`; this contradicts the sampler's own documentation
("keep a target sample size (e.g., 5 from 5000)").  All arithmetic at
this input is exact in binary64, so the JS run agrees.
-/
theorem shouldSample_size_bound_fails :
    (5 : ℕ) < 10 ∧
    (sampledSet 10 5).card = 10 ∧
    ¬ (sampledSet 10 5).card ≤ max 5 2 := by
  have h : sampledSet 10 5 = Finset.range 10 := by
    apply Finset.filter_true_of_mem
    intro i hi
    fin_cases hi <;> norm_num [shouldSample]
  refine ⟨by norm_num, ?_, ?_⟩ <;> simp [h]

end AdaptiveSampler

namespace EventBuffer

/-- The `BufferConfig` interface (`packages/sdk-core/src/buffer.ts`). -/
structure BufferConfig where
  maxSize : ℕ
  flushIntervalMs : ℕ
  batchSize : ℕ
deriving DecidableEq, Repr

/-- The `DEFAULT_CONFIG` constant from `buffer.ts`. -/
def DEFAULT_CONFIG : BufferConfig :=
  { maxSize := 1000, flushIntervalMs := 5000, batchSize := 100 }

/-- The `Partial<BufferConfig>` of optional overrides passed to the constructor. -/
structure BufferConfigOverrides where
  maxSize : Option ℕ
  flushIntervalMs : Option ℕ
  batchSize : Option ℕ

/-- The spread `{ ...DEFAULT_CONFIG, ...config }` computed in the constructor. -/
def finalConfig (config : BufferConfigOverrides) : BufferConfig :=
  { maxSize := config.maxSize.getD DEFAULT_CONFIG.maxSize,
    flushIntervalMs := config.flushIntervalMs.getD DEFAULT_CONFIG.flushIntervalMs,
    batchSize := config.batchSize.getD DEFAULT_CONFIG.batchSize }

/--
The mutable fields of an `EventBuffer` instance, plus `flushed`: the
batches that have been handed to the `flushCallback` (i.e. to the
transport), recorded so theorems can speak about what was dispatched.
`timerActive` models `flushTimer ≠ null`.
-/
structure State (E : Type) where
  buffer : List E
  isFlushing : Bool
  timerActive : Bool
  flushed : List (List E)
deriving DecidableEq, Repr

/--
The `EventBuffer` constructor: empty buffer, periodic timer started with
`finalConfig.flushIntervalMs`.  Note that the constructor consults the
merged config only for the timer interval; `add` below reads
`DEFAULT_CONFIG` directly, exactly as the source does.
-/
def create (E : Type) (_config : BufferConfigOverrides) : State E :=
  { buffer := [], isFlushing := false, timerActive := true, flushed := [] }

/--
One complete execution of `flush()`: the guard
`if (this.isFlushing || this.buffer.length === 0) return;` and, when it
passes, the buffer is copied, cleared, the copy is handed to
`flushCallback`, and `isFlushing` is reset in the `finally` block.
Whether the callback resolves or rejects is irrelevant to the state: a
failed batch is dropped, not re-enqueued.
-/
def flush (s : State E) : State E :=
  if s.isFlushing || s.buffer.isEmpty then s
  else { s with buffer := [],
                flushed := s.flushed ++ [s.buffer],
                isFlushing := false }

/--
`add(event)`: drop the oldest element (`shift`) when the length has
reached `DEFAULT_CONFIG.maxSize` — the source compares against the
constant default, not the instance's configured value — then push, then
fire a flush when the length has reached `DEFAULT_CONFIG.batchSize`.
-/
def add (s : State E) (event : E) : State E :=
  let s1 := if DEFAULT_CONFIG.maxSize ≤ s.buffer.length
            then { s with buffer := s.buffer.tail }
            else s
  let s2 := { s1 with buffer := s1.buffer ++ [event] }
  if DEFAULT_CONFIG.batchSize ≤ s2.buffer.length then flush s2 else s2

/-- Embedding of `forceFlush()`: cancel the periodic timer, then `await this.flush()`. -/
def forceFlush (s : State E) : State E :=
  flush { s with timerActive := false }

/-- Embedding of `getSize()`. -/
def getSize (s : State E) : ℕ := s.buffer.length

/--
C2.  The claim says a buffer holding the *configured* `maxSize` events
drops the oldest before appending, so the size never exceeds the
configured `maxSize`.  The code compares against the constant
`DEFAULT_CONFIG.maxSize` instead (the spec's own open-questions section
records this deviation and calls the configured value authoritative):
with `maxSize` configured to `1`, two `add`s leave both events in the
buffer, nothing is dropped, nothing is flushed, and the size `2`
exceeds the configured bound `1`.
-/
theorem add_ignores_configured_maxSize :
    (finalConfig { maxSize := some 1, flushIntervalMs := none, batchSize := none }).maxSize
      = 1 ∧
    (add (add (create ℕ { maxSize := some 1, flushIntervalMs := none, batchSize := none }) 10) 20).buffer
      = [10, 20] ∧
    (add (add (create ℕ { maxSize := some 1, flushIntervalMs := none, batchSize := none }) 10) 20).flushed
      = [] ∧
    ¬ (add (add (create ℕ { maxSize := some 1, flushIntervalMs := none, batchSize := none }) 10) 20).buffer.length
      ≤ (finalConfig { maxSize := some 1, flushIntervalMs := none, batchSize := none }).maxSize := by
  refine ⟨rfl, ?_, ?_, ?_⟩ <;> decide

/--
C5 (counterexample).  The claim says `forceFlush()` drains every
buffered event even when another flush is already in progress, because
`flush()` waits for the pending dispatch.  In the source, `flush()`
returns immediately when `isFlushing` is set, so `forceFlush` called
while a dispatch is in flight cancels the timer but hands nothing to
the transport and leaves the buffer untouched.
-/
theorem forceFlush_during_flush_does_not_drain :
    (forceFlush { buffer := [7], isFlushing := true,
                  timerActive := true, flushed := [] : State ℕ }).buffer = [7] ∧
    (forceFlush { buffer := [7], isFlushing := true,
                  timerActive := true, flushed := [] : State ℕ }).flushed = [] ∧
    (forceFlush { buffer := [7], isFlushing := true,
                  timerActive := true, flushed := [] : State ℕ }).timerActive = false := by
  refine ⟨?_, ?_, ?_⟩ <;> decide

/--
C5 (amended).  `forceFlush()` always cancels the periodic timer.  When
no flush is in progress it drains the buffer, handing the whole
contents to the transport in one batch (or nothing when the buffer is
empty).  When a flush is already in progress it returns without
waiting: the only change to the state is the cancelled timer.
-/
theorem forceFlush_amended (s : State E) :
    (forceFlush s).timerActive = false ∧
    (s.isFlushing = false →
      (forceFlush s).buffer = [] ∧
      (forceFlush s).flushed
        = if s.buffer.isEmpty then s.flushed else s.flushed ++ [s.buffer]) ∧
    (s.isFlushing = true → forceFlush s = { s with timerActive := false }) := by
  unfold forceFlush flush
  rcases s with ⟨buf, fl, tm, fd⟩
  cases fl <;> cases buf <;> simp

/-- Witness instantiating `forceFlush_amended` at concrete states. -/
theorem forceFlush_amended_witness :
    (forceFlush { buffer := [5], isFlushing := false,
                  timerActive := true, flushed := [] : State ℕ }).buffer = [] ∧
    forceFlush { buffer := [5], isFlushing := true,
                 timerActive := true, flushed := [] : State ℕ }
      = { buffer := [5], isFlushing := true,
          timerActive := false, flushed := [] } :=
  ⟨((forceFlush_amended _).2.1 rfl).1, (forceFlush_amended _).2.2 rfl⟩

end EventBuffer

namespace HttpTransport

/--
What a single `fetch` attempt inside `sendWithRetry`
(`packages/sdk-core/src/transport.ts`) can come to:
`success` — 2xx response;
`abortError` — the request was aborted by the per-attempt timeout
(`lastError.name === 'AbortError'`);
`failure` — any other rejection, including the `Error` thrown for a
non-ok HTTP status.  The environment is modelled as a function giving
the outcome of each attempt number.
-/
inductive AttemptOutcome where
  | success
  | abortError
  | failure
deriving DecidableEq, Repr

/-- What one call to `sendWithRetry` did: how many HTTP attempts were
made, the backoff delays slept between consecutive attempts (in order),
and whether the call returned normally (`ok = true`) or threw. -/
structure RetryResult where
  attempts : ℕ
  delays : List ℕ
  ok : Bool
deriving DecidableEq, Repr

/--
The `for (let attempt = 0; attempt <= maxRetries; attempt++)` loop of
`sendWithRetry`, from iteration `attempt` on, with `fuel` remaining
loop iterations (`fuel = maxRetries + 1 - attempt` at every call).  On
`success` the method returns; on `abortError`, or on `failure` with
`attempt >= maxRetries`, it throws `lastError`; otherwise it sleeps
`retryDelayMs * 2 ^ attempt` and retries.  Exhausted fuel corresponds
to the unreachable `throw lastError` after the loop.
-/
def sendWithRetryGo (att : ℕ → AttemptOutcome) (maxRetries retryDelayMs : ℕ) :
    ℕ → ℕ → RetryResult
  | _, 0 => { attempts := 0, delays := [], ok := false }
  | attempt, fuel + 1 =>
    match att attempt with
    | .success => { attempts := 1, delays := [], ok := true }
    | .abortError => { attempts := 1, delays := [], ok := false }
    | .failure =>
      if maxRetries ≤ attempt then { attempts := 1, delays := [], ok := false }
      else
        let r := sendWithRetryGo att maxRetries retryDelayMs (attempt + 1) fuel
        { attempts := r.attempts + 1,
          delays := retryDelayMs * 2 ^ attempt :: r.delays,
          ok := r.ok }

/-- Embedding of `sendWithRetry`: the loop started at `attempt = 0`. -/
def sendWithRetry (att : ℕ → AttemptOutcome) (maxRetries retryDelayMs : ℕ) :
    RetryResult :=
  sendWithRetryGo att maxRetries retryDelayMs 0 (maxRetries + 1)

/--
C4 (counterexample).  The claim says the request is attempted at most
`maxRetries` (default 3) times.  With every attempt failing retryably,
the loop `for (attempt = 0; attempt <= maxRetries; attempt++)` makes
`maxRetries + 1 = 4` attempts.
-/
theorem sendWithRetry_makes_four_attempts :
    (sendWithRetry (fun _ => .failure) 3 1000).attempts = 4 ∧
    ¬ (sendWithRetry (fun _ => .failure) 3 1000).attempts ≤ 3 := by
  refine ⟨?_, ?_⟩ <;> decide

theorem sendWithRetryGo_attempts_le (att : ℕ → AttemptOutcome)
    (maxRetries retryDelayMs : ℕ) :
    ∀ fuel attempt,
      (sendWithRetryGo att maxRetries retryDelayMs attempt fuel).attempts ≤ fuel := by
  intro fuel
  induction fuel with
  | zero => intro attempt; simp [sendWithRetryGo]
  | succ n ih =>
    intro attempt
    unfold sendWithRetryGo
    cases att attempt <;> simp
    split
    · simp
    · simpa using ih (attempt + 1)

theorem cons_backoff_shape (d a : ℕ) (l : List ℕ)
    (h : l = (List.range l.length).map (fun j => d * 2 ^ (a + 1 + j))) :
    d * 2 ^ a :: l
      = (List.range (d * 2 ^ a :: l).length).map (fun j => d * 2 ^ (a + j)) := by
  conv_lhs => rw [h]
  rw [List.length_cons, List.range_succ_eq_map, List.map_cons, List.map_map]
  refine List.cons_eq_cons.mpr ⟨by simp, ?_⟩
  apply List.map_congr_left
  intro j _
  simp only [Function.comp_apply]
  have hexp : a + 1 + j = a + (j + 1) := by omega
  rw [hexp]

theorem sendWithRetryGo_delays (att : ℕ → AttemptOutcome)
    (maxRetries retryDelayMs : ℕ) :
    ∀ fuel attempt,
      (sendWithRetryGo att maxRetries retryDelayMs attempt fuel).delays
        = (List.range (sendWithRetryGo att maxRetries retryDelayMs attempt fuel).delays.length).map
            (fun j => retryDelayMs * 2 ^ (attempt + j)) := by
  intro fuel
  induction fuel with
  | zero => intro attempt; simp [sendWithRetryGo]
  | succ n ih =>
    intro attempt
    rcases hatt : att attempt with _ | _ | _ <;>
      simp only [sendWithRetryGo, hatt]
    · simp
    · simp
    · split
      · simp
      · exact cons_backoff_shape retryDelayMs attempt _ (ih (attempt + 1))

/--
C4 (amended).  `sendWithRetry` makes at most `maxRetries + 1` HTTP
attempts (the initial attempt plus up to `maxRetries` retries; 4 with
the default `maxRetries = 3`), and the delay slept before the retry
following failed attempt number `a` (counting from 0) is
`retryDelayMs * 2 ^ a`: the list of backoff delays is exactly
`[retryDelayMs * 2^0, retryDelayMs * 2^1, …]`.
-/
theorem sendWithRetry_attempt_bound_and_backoff (att : ℕ → AttemptOutcome)
    (maxRetries retryDelayMs : ℕ) :
    (sendWithRetry att maxRetries retryDelayMs).attempts ≤ maxRetries + 1 ∧
    (sendWithRetry att maxRetries retryDelayMs).delays
      = (List.range (sendWithRetry att maxRetries retryDelayMs).delays.length).map
          (fun a => retryDelayMs * 2 ^ a) := by
  constructor
  · exact sendWithRetryGo_attempts_le att maxRetries retryDelayMs (maxRetries + 1) 0
  · have h := sendWithRetryGo_delays att maxRetries retryDelayMs (maxRetries + 1) 0
    simpa [sendWithRetry] using h

end HttpTransport

namespace SharedTypes

/-- The `XRStepType` enum (`packages/shared-types/src/index.ts`). -/
inductive XRStepType where
  | filter | rank | llm | transform | score
deriving DecidableEq, Repr

/-- The `XRDecisionOutcome` enum. -/
inductive XRDecisionOutcome where
  | kept | eliminated | scored
deriving DecidableEq, Repr

/-- The `XRRunStatus` enum. -/
inductive XRRunStatus where
  | pending | running | completed | failed | cancelled
deriving DecidableEq, Repr

/--
`XRStep.config` is an opaque `Record<string, unknown>`.  The only keys
any embedded operation ever consults are the numeric
`inputCount`/`input_count` and `outputCount`/`output_count` read by the
processor's `calculateStepMetrics`, so the record is modelled as those
two optional numbers (each standing for the first present of its two
spellings).
-/
structure StepConfig where
  inputCount : Option ℚ
  outputCount : Option ℚ
deriving DecidableEq, Repr

/-- The `XRStep` interface.  Dates are modelled as natural-number timestamps. -/
structure XRStep where
  id : String
  type : XRStepType
  name : String
  config : Option StepConfig
  startedAt : ℕ
  completedAt : Option ℕ
deriving DecidableEq, Repr

/--
`XRDecisionEvent.metadata` is an opaque record; the keys consulted by
the embedded operations are the numeric `inputCount`/`input_count` and
`outputCount`, and the `sampled` flag.
-/
structure EventMetadata where
  inputCount : Option ℚ
  outputCount : Option ℚ
  sampled : Option Bool
deriving DecidableEq, Repr

/-- The `XRDecisionEvent` interface.  The opaque `input`/`output` payloads are
modelled as optional strings; no embedded operation inspects them. -/
structure XRDecisionEvent where
  id : String
  stepId : String
  runId : String
  outcome : XRDecisionOutcome
  itemId : String
  input : Option String
  output : Option String
  reason : String
  score : Option ℚ
  metadata : Option EventMetadata
  timestamp : ℕ
deriving DecidableEq, Repr

/-- The `XRRun` interface.  The opaque `input`/`output`/`metadata` payloads are
modelled as optional strings. -/
structure XRRun where
  id : String
  pipelineId : String
  status : XRRunStatus
  input : Option String
  output : Option String
  startedAt : ℕ
  completedAt : Option ℕ
  error : Option String
  metadata : Option String
deriving DecidableEq, Repr

end SharedTypes

namespace ClickHouseStorage

open SharedTypes

/-- The `StepMetrics` record built by
`ClickHouseStorage.calculateStepMetrics`
(`services/processor-worker/src/clickhouse.ts`). -/
structure StepMetrics where
  stepId : String
  runId : String
  pipelineId : String
  stepType : XRStepType
  stepName : String
  inputCount : ℚ
  outputCount : ℚ
  eliminationRatio : ℚ
  keptCount : ℕ
  eliminatedCount : ℕ
  scoredCount : ℕ
  startedAt : ℕ
  completedAt : Option ℕ
deriving DecidableEq, Repr

/-- JS `x || d` on numbers: `undefined` and the falsy `0` fall through
to the default. -/
def jsNumOr (v : Option ℚ) (d : ℚ) : ℚ :=
  match v with
  | some x => if x = 0 then d else x
  | none => d

/--
Embedding of `ClickHouseStorage.calculateStepMetrics` as it appears in
the compiling version of the file: `inputCount` comes from the first
decision event's `metadata.inputCount`, falling back (also on a falsy
`0`) to the number of captured events, and is `0` for an empty event
list; `outputCount` is always the number of captured events; the
outcome counts are filters over the events; `eliminationRatio` is
`1 - outputCount / inputCount` guarded by `inputCount > 0`, with no
clamping.  (The repository's second copy of the file starts
`calculateStepMetrics` with a config-based path, but that copy contains
a stray unclosed `if (outputCount === 0) {` and does not parse; see the
C6 theorem below.)
-/
def calculateStepMetrics (step : XRStep) (run : XRRun)
    (decisionEvents : List XRDecisionEvent) : StepMetrics :=
  let inputCount : ℚ :=
    match decisionEvents with
    | [] => 0
    | e :: _ => jsNumOr (e.metadata.bind EventMetadata.inputCount) decisionEvents.length
  let outputCount : ℚ := decisionEvents.length
  let keptCount := (decisionEvents.filter (fun e => e.outcome == .kept)).length
  let eliminatedCount := (decisionEvents.filter (fun e => e.outcome == .eliminated)).length
  let scoredCount := (decisionEvents.filter (fun e => e.outcome == .scored)).length
  let eliminationRatio : ℚ :=
    if 0 < inputCount then 1 - outputCount / inputCount else 0
  { stepId := step.id, runId := run.id, pipelineId := run.pipelineId,
    stepType := step.type, stepName := step.name,
    inputCount := inputCount, outputCount := outputCount,
    eliminationRatio := eliminationRatio,
    keptCount := keptCount, eliminatedCount := eliminatedCount,
    scoredCount := scoredCount,
    startedAt := step.startedAt, completedAt := step.completedAt }

/-- A step whose config carries `inputCount = 100` and no
`outputCount`, used to exercise the claimed config precedence. -/
def stepWithConfig : XRStep :=
  { id := "s1", type := .filter, name := "config-step",
    config := some { inputCount := some 100, outputCount := none },
    startedAt := 0, completedAt := some 10 }

/-- A run for the evaluation theorems. -/
def someRun : XRRun :=
  { id := "r1", pipelineId := "p1", status := .completed,
    input := none, output := none, startedAt := 0, completedAt := some 20,
    error := none, metadata := none }

/-- An eliminated decision event whose metadata reports
`inputCount = 50`. -/
def eliminatedEvent : XRDecisionEvent :=
  { id := "e1", stepId := "s1", runId := "r1", outcome := .eliminated,
    itemId := "i1", input := none, output := none, reason := "dropped",
    score := none,
    metadata := some { inputCount := some 50, outputCount := none, sampled := none },
    timestamp := 1 }

/--
C6.  The claim (and the spec, which calls this precedence
authoritative) says `inputCount` is taken from `config.inputCount` when
present and `outputCount` falls back to `keptCount + scoredCount` when
absent from the config.  The only parseable copy of
`calculateStepMetrics` consults no config at all: with
`config.inputCount = 100` present and one eliminated event reporting
`metadata.inputCount = 50`, it returns `inputCount = 50` (not 100) and
`outputCount = 1`, the event count, although `kept + scored = 0`.  The
repository copy that does implement the claimed precedence is dead
code: it contains a stray unclosed `if (outputCount === 0) {` and the
file fails to parse.
-/
theorem calculateStepMetrics_ignores_config :
    (calculateStepMetrics stepWithConfig someRun [eliminatedEvent]).inputCount = 50 ∧
    stepWithConfig.config = some { inputCount := some 100, outputCount := none } ∧
    (calculateStepMetrics stepWithConfig someRun [eliminatedEvent]).inputCount ≠ 100 ∧
    (calculateStepMetrics stepWithConfig someRun [eliminatedEvent]).outputCount = 1 ∧
    (calculateStepMetrics stepWithConfig someRun [eliminatedEvent]).keptCount
        + (calculateStepMetrics stepWithConfig someRun [eliminatedEvent]).scoredCount = 0 ∧
    (calculateStepMetrics stepWithConfig someRun [eliminatedEvent]).outputCount ≠ 0 := by
  refine ⟨?_, rfl, ?_, ?_, by decide, ?_⟩ <;>
    norm_num [calculateStepMetrics, jsNumOr, stepWithConfig, eliminatedEvent,
      List.filter]

/-- The elimination ratio exactly as the claim words it:
`1 − outputCount / max(inputCount, 1)`, clamped to `[0, 1]`. -/
def claimedEliminationRatio (inputCount outputCount : ℚ) : ℚ :=
  max 0 (min 1 (1 - outputCount / max inputCount 1))

/-- A kept decision event whose metadata reports `inputCount = 1`. -/
def keptEventSmallInput : XRDecisionEvent :=
  { id := "e2", stepId := "s1", runId := "r1", outcome := .kept,
    itemId := "i2", input := none, output := none, reason := "kept",
    score := none,
    metadata := some { inputCount := some 1, outputCount := none, sampled := none },
    timestamp := 2 }

/-- A second kept decision event with no metadata. -/
def keptEventNoMeta : XRDecisionEvent :=
  { id := "e3", stepId := "s1", runId := "r1", outcome := .kept,
    itemId := "i3", input := none, output := none, reason := "kept",
    score := none, metadata := none, timestamp := 3 }

/--
C7 (counterexample).  The claim says `eliminationRatio` is clamped to
`[0, 1]`.  The code computes `1 - outputCount / inputCount` with no
clamp: two captured events whose first reports `metadata.inputCount =
1` give `inputCount = 1`, `outputCount = 2`, ratio `-1` — negative, and
different from the claimed clamped value `0`.
-/
theorem eliminationRatio_not_clamped :
    (calculateStepMetrics stepWithConfig someRun
        [keptEventSmallInput, keptEventNoMeta]).eliminationRatio = -1 ∧
    (calculateStepMetrics stepWithConfig someRun
        [keptEventSmallInput, keptEventNoMeta]).eliminationRatio < 0 ∧
    claimedEliminationRatio
        (calculateStepMetrics stepWithConfig someRun
          [keptEventSmallInput, keptEventNoMeta]).inputCount
        (calculateStepMetrics stepWithConfig someRun
          [keptEventSmallInput, keptEventNoMeta]).outputCount = 0 := by
  refine ⟨?_, ?_, ?_⟩ <;>
    norm_num [calculateStepMetrics, jsNumOr, claimedEliminationRatio,
      keptEventSmallInput, keptEventNoMeta]

/--
C7 (amended).  For every aggregated step-metrics row,
`eliminationRatio = 1 − outputCount / inputCount` when
`inputCount > 0`, and `0` otherwise — in particular it is `0` whenever
`inputCount = 0`.  The value is never above `1`, and it is only
guaranteed non-negative when `outputCount ≤ inputCount`: the code does
not clamp, so the ratio is negative whenever the captured events
outnumber the reported input count.
-/
theorem eliminationRatio_amended (step : XRStep) (run : XRRun)
    (events : List XRDecisionEvent) :
    ((calculateStepMetrics step run events).inputCount = 0 →
      (calculateStepMetrics step run events).eliminationRatio = 0) ∧
    (0 < (calculateStepMetrics step run events).inputCount →
      (calculateStepMetrics step run events).eliminationRatio
        = 1 - (calculateStepMetrics step run events).outputCount
              / (calculateStepMetrics step run events).inputCount) ∧
    (calculateStepMetrics step run events).eliminationRatio ≤ 1 ∧
    (0 < (calculateStepMetrics step run events).inputCount →
      (calculateStepMetrics step run events).outputCount
          ≤ (calculateStepMetrics step run events).inputCount →
      0 ≤ (calculateStepMetrics step run events).eliminationRatio) := by
  have hratio : (calculateStepMetrics step run events).eliminationRatio
      = if 0 < (calculateStepMetrics step run events).inputCount
        then 1 - (calculateStepMetrics step run events).outputCount
                 / (calculateStepMetrics step run events).inputCount
        else 0 := rfl
  have hout : (calculateStepMetrics step run events).outputCount
      = (events.length : ℚ) := rfl
  refine ⟨?_, ?_, ?_, ?_⟩
  · intro h0
    rw [hratio, if_neg]
    rw [h0]
    exact lt_irrefl 0
  · intro hpos
    rw [hratio, if_pos hpos]
  · rw [hratio]
    split
    · rename_i hpos
      have hdiv : 0 ≤ (calculateStepMetrics step run events).outputCount
          / (calculateStepMetrics step run events).inputCount := by
        apply div_nonneg
        · rw [hout]; positivity
        · exact le_of_lt hpos
      linarith
    · norm_num
  · intro hpos hle
    rw [hratio, if_pos hpos]
    have := (div_le_one hpos).mpr hle
    linarith

/-- Witness instantiating `eliminationRatio_amended`: an empty event
list yields `inputCount = 0` and ratio `0`. -/
theorem eliminationRatio_amended_witness :
    (calculateStepMetrics stepWithConfig someRun []).eliminationRatio = 0 :=
  (eliminationRatio_amended stepWithConfig someRun []).1 rfl

end ClickHouseStorage

namespace IngestionApi

/--
The element-collection loop of `validateDecisionEvents`
(`services/ingestion-api/src/validation.ts`), parameterised by the
per-element validator `validate` (standing for `validateDecisionEvent`,
whose zod schema is irrelevant to the batch logic: it either yields a
parsed event or fails).  Starting at index `i`, it returns the parsed
events of the valid elements in order, together with the indices of the
invalid elements (each index standing for the
`Event <i>: <error>` string pushed to `errors`).
-/
def collectValid (validate : α → Option β) : ℕ → List α → List β × List ℕ
  | _, [] => ([], [])
  | i, x :: xs =>
    let rest := collectValid validate (i + 1) xs
    match validate x with
    | some b => (b :: rest.1, rest.2)
    | none => (rest.1, i :: rest.2)

/-- The result shape of `validateDecisionEvents`: `success`, the parsed
`data`, and `error` (the indices of the invalid elements, standing for
the joined error message / warning string; `none` when no message was
set). -/
structure BatchValidation (β : Type) where
  success : Bool
  data : Option (List β)
  error : Option (List ℕ)
deriving DecidableEq, Repr

/-- Embedding of `validateDecisionEvents(data)`: validate each element; fail with
`success: false` when no element is valid, otherwise succeed with the
valid elements and, when some elements were invalid, a warning. -/
def validateDecisionEvents (validate : α → Option β) (data : List α) :
    BatchValidation β :=
  let rs := collectValid validate 0 data
  if rs.1.isEmpty then
    { success := false, data := none, error := some rs.2 }
  else
    { success := true, data := some rs.1,
      error := if rs.2.isEmpty then none else some rs.2 }

/--
`InMemoryQueue.pushDecisionEvents`
(`services/ingestion-api/src/queue.ts`): push each event via
`pushDecisionEvent`, which appends to an in-process array inside a
`try`/`catch` and always returns `true` (an array push does not throw),
and return the number of successful pushes — always the whole batch.
Returns the new queue contents and the count.
-/
def pushDecisionEvents (queue : List β) (events : List β) : List β × ℕ :=
  (queue ++ events, events.length)

/-- The response of the `case 'decisions'` branch of `POST /ingest`
(`services/ingestion-api/src/routes` / `createIngestRoutes`): a 200
carrying `{queued, total, partial, warning}` or a 400 carrying the
validation error. -/
inductive IngestResponse where
  | ok (queued total : ℕ) (isPartial : Bool) (warning : Option (List ℕ))
  | badRequest (error : List ℕ)
deriving DecidableEq, Repr

/--
The `case 'decisions'` branch of the `/ingest` handler: run
`validateDecisionEvents`; on failure answer 400 with the error; on
success push the *valid* events, read `totalCount` as
`validation.data.length`, and answer 200 with
`{queued: queuedCount, total: totalCount, partial: queuedCount <
totalCount, warning: validation.error}`.  Returns the response and the
new queue contents.
-/
def ingestDecisions (validate : α → Option β) (queue : List β)
    (data : List α) : IngestResponse × List β :=
  let validation := validateDecisionEvents validate data
  match validation.success, validation.data with
  | true, some vd =>
    let pushres := pushDecisionEvents queue vd
    (.ok pushres.2 vd.length (decide (pushres.2 < vd.length)) validation.error,
     pushres.1)
  | _, _ =>
    (.badRequest (validation.error.getD []), queue)

/-- The valid elements collected by the loop are exactly the
`filterMap` of the validator over the batch, whatever the start
index. -/
theorem collectValid_fst (validate : α → Option β) :
    ∀ (i : ℕ) (data : List α),
      (collectValid validate i data).1 = data.filterMap validate := by
  intro i data
  induction data generalizing i with
  | nil => simp [collectValid]
  | cons x xs ih =>
    rw [collectValid, List.filterMap_cons]
    cases hv : validate x <;> simp [hv, ih]

/--
C3 (counterexample).  The claim says a batch `[valid, invalid, valid]`
yields 200 with `{queued: 2, total: 3, partial: true}`.  In the code
`totalCount = validation.data.length` counts only the *valid* elements
and the in-memory queue accepts every valid event, so the same batch
yields `{queued: 2, total: 2, partial: false}` (with a warning naming
index 1): `total` is not the submitted batch size and `partial` does
not reflect the dropped invalid element.
-/
theorem ingestDecisions_total_is_valid_count :
    (ingestDecisions (fun b : Bool => if b then some b else none)
        ([] : List Bool) [true, false, true]).1
      = .ok 2 2 false (some [1]) ∧
    (2 : ℕ) ≠ 3 ∧ (false ≠ true) := by
  refine ⟨?_, by decide, by decide⟩
  decide

/--
C3 (amended).  Each element of a `decisions` batch is validated
individually.  When no element is valid the response is 400 carrying
the per-element errors.  When at least one element is valid the
response is 200 with `queued` = the number of valid events enqueued
(the in-memory queue accepts all of them), `total` = the number of
*valid* elements — not the size of the submitted batch — `partial` =
`queued < total` (hence `false` with the in-memory queue), and a
warning naming the invalid indices when there were any; the valid
events, in order, are appended to the queue.
-/
theorem ingestDecisions_amended (validate : α → Option β) (queue : List β)
    (data : List α) :
    (data.filterMap validate = [] →
      ingestDecisions validate queue data
        = (.badRequest (collectValid validate 0 data).2, queue)) ∧
    (data.filterMap validate ≠ [] →
      ingestDecisions validate queue data
        = (.ok (data.filterMap validate).length (data.filterMap validate).length
              false
              (if (collectValid validate 0 data).2.isEmpty then none
               else some (collectValid validate 0 data).2),
           queue ++ data.filterMap validate)) := by
  have hfst := collectValid_fst validate 0 data
  constructor
  · intro hempty
    unfold ingestDecisions validateDecisionEvents
    simp only [hfst, hempty]
    simp
  · intro hne
    unfold ingestDecisions validateDecisionEvents pushDecisionEvents
    have hX : (data.filterMap validate).isEmpty = false :=
      List.isEmpty_eq_false_iff_exists_mem.mpr
        (List.exists_mem_of_ne_nil _ hne)
    simp only [hfst, hX]
    simp

/-- Witness instantiating `ingestDecisions_amended` at the
`[valid, invalid, valid]` batch. -/
theorem ingestDecisions_amended_witness :
    ingestDecisions (fun b : Bool => if b then some b else none)
        ([] : List Bool) [true, false, true]
      = (.ok 2 2 false (some [1]), [true, true]) := by
  have h := (ingestDecisions_amended
      (fun b : Bool => if b then some b else none)
      ([] : List Bool) [true, false, true]).2 (by decide)
  simpa using h

end IngestionApi

namespace XRay

open SharedTypes

/-- A JS `Map<string, α>` as an insertion-ordered association list. -/
abbrev JsMap (α : Type) : Type := List (String × α)

/-- Semantics of `Map.get`. -/
def mapGet (m : JsMap α) (k : String) : Option α :=
  (m.find? (fun p => p.1 == k)).map Prod.snd

/-- Semantics of `Map.set`: overwrite in place when the key exists, else append. -/
def mapSet (m : JsMap α) (k : String) (v : α) : JsMap α :=
  if m.any (fun p => p.1 == k) then
    m.map (fun p => if p.1 == k then (k, v) else p)
  else
    m ++ [(k, v)]

/-- Semantics of `Map.delete`. -/
def mapDelete (m : JsMap α) (k : String) : JsMap α :=
  m.filter (fun p => !(p.1 == k))

/-- What the transport was asked to send (`sendRun` / `sendStep` /
`sendDecisionEvents`); the sends are fire-and-forget and their
failures silent, so only the requests matter. -/
inductive SentMsg where
  | runMsg (r : XRRun)
  | stepMsg (s : XRStep)
deriving DecidableEq, Repr

/-- The mutable fields of an `XRay` instance
(`packages/sdk-core/src/XRay.ts`), with `sent` recording the transport
requests and `buffer` the events handed to the `EventBuffer`. -/
structure State where
  activeRuns : JsMap XRRun
  activeSteps : JsMap XRStep
  buffer : List XRDecisionEvent
  sent : List SentMsg
deriving Repr

/-- The error raised by the caller's step function, opaque to the SDK. -/
structure AppError where
  message : String
deriving DecidableEq, Repr

/--
Embedding of `XRay.step`.  The fresh `uuidv4()` is passed in as
`stepId`, the two `new Date()` reads as `t1`/`t2`, and one execution of
the caller's `businessLogic` as `fnResult` (its value on success, the
raised error otherwise).  `captured` is the list of decision events the
`captureStepMetrics` call appends to the buffer on the success path —
the claims settled below hold for every such list, so the derivation
itself (sampling, outcome detection) is left universally quantified
rather than fixed.  The body follows the source's `try`/`catch`/
`finally`: register the step, best-effort-send it, run the business
logic; on success capture metrics, set `completedAt`, send the step
again and return the output; on error set `completedAt`, send the step
again and re-throw; in both cases finally delete the step from
`activeSteps`.
-/
def step (s : State) (stepId : String) (stepType : XRStepType)
    (stepName : String) (config : Option StepConfig) (t1 t2 : ℕ)
    (fnResult : Except AppError τ) (captured : List XRDecisionEvent) :
    Except AppError τ × State :=
  let st : XRStep :=
    { id := stepId, type := stepType, name := stepName, config := config,
      startedAt := t1, completedAt := none }
  let s1 : State :=
    { s with activeSteps := mapSet s.activeSteps stepId st,
             sent := s.sent ++ [.stepMsg st] }
  match fnResult with
  | .ok output =>
    let s2 : State := { s1 with buffer := s1.buffer ++ captured }
    let stDone : XRStep := { st with completedAt := some t2 }
    let s3 : State := { s2 with sent := s2.sent ++ [.stepMsg stDone] }
    let s4 : State := { s3 with activeSteps := mapDelete s3.activeSteps stepId }
    (.ok output, s4)
  | .error e =>
    let stDone : XRStep := { st with completedAt := some t2 }
    let s2 : State := { s1 with sent := s1.sent ++ [.stepMsg stDone] }
    let s3 : State := { s2 with activeSteps := mapDelete s2.activeSteps stepId }
    (.error e, s3)

/--
Embedding of `XRay.endRun`.  Looks the run up in `activeRuns`; when
absent it returns silently.  Otherwise it sets the terminal status
(`failed` iff an error was supplied), `completedAt`, `output` and
`error`, best-effort-sends the updated run, and deletes it from
`activeRuns`.
-/
def endRun (s : State) (runId : String) (t : ℕ)
    (output : Option String) (error : Option String) : State :=
  match mapGet s.activeRuns runId with
  | none => s
  | some run =>
    let run2 : XRRun :=
      { run with
        status := if error.isSome then .failed else .completed,
        completedAt := some t,
        output := output,
        error := error }
    -- the run object inside the map is mutated in place (the map keeps
    -- pointing at it) and then deleted, so the map's net change is the
    -- removal of `runId`
    { s with activeRuns := mapDelete s.activeRuns runId,
             sent := s.sent ++ [.runMsg run2] }

theorem filter_map_overwrite (m : JsMap α) (k : String) (v : α) :
    (m.map (fun p => if p.1 == k then (k, v) else p)).filter
        (fun p => !(p.1 == k))
      = m.filter (fun p => !(p.1 == k)) := by
  induction m with
  | nil => rfl
  | cons p ps ih =>
    by_cases hp : p.1 = k
    · simpa [hp] using ih
    · have hpk : (p.1 == k) = false := beq_false_of_ne hp
      simpa [hp, hpk] using ih

/-- Deleting a key right after setting it removes exactly the entries
that a plain delete would. -/
theorem mapDelete_mapSet (m : JsMap α) (k : String) (v : α) :
    mapDelete (mapSet m k v) k = mapDelete m k := by
  unfold mapDelete mapSet
  split
  · exact filter_map_overwrite m k v
  · simp [List.filter_append]

/-- A deleted key has no entry left. -/
theorem mapGet_mapDelete (m : JsMap α) (k : String) :
    mapGet (mapDelete m k) k = none := by
  unfold mapGet mapDelete
  rw [List.find?_filter]
  induction m with
  | nil => simp
  | cons p ps ih =>
    by_cases hp : p.1 = k
    · simp [List.find?, hp]
    · have hpk : (p.1 == k) = false := beq_false_of_ne hp
      simp [List.find?, hpk]

/--
C8.  When the caller's step function raises, `XRay.step` still marks
the step completed (`completedAt = t2`), sends the completed step to
the transport, re-raises the very same error to the caller, and adds
nothing to the event buffer (metrics capture runs only on the success
path).
-/
theorem step_reraises_and_records (s : State) (stepId : String)
    (stepType : XRStepType) (stepName : String) (config : Option StepConfig)
    (t1 t2 : ℕ) (e : AppError) (captured : List XRDecisionEvent) :
    (step (τ := τ) s stepId stepType stepName config t1 t2 (.error e) captured).1
      = .error e ∧
    (step (τ := τ) s stepId stepType stepName config t1 t2 (.error e) captured).2.sent
      = s.sent
        ++ [.stepMsg { id := stepId, type := stepType, name := stepName,
                       config := config, startedAt := t1, completedAt := none },
            .stepMsg { id := stepId, type := stepType, name := stepName,
                       config := config, startedAt := t1, completedAt := some t2 }] ∧
    (step (τ := τ) s stepId stepType stepName config t1 t2 (.error e) captured).2.buffer
      = s.buffer := by
  refine ⟨rfl, ?_, rfl⟩
  simp [step]

/--
C9.  `XRay.endRun` on a `runId` that is not in `activeRuns` returns
without raising and changes nothing: no transport send, no state
mutation.
-/
theorem endRun_unknown_run_is_noop (s : State) (runId : String) (t : ℕ)
    (output : Option String) (error : Option String)
    (h : mapGet s.activeRuns runId = none) :
    endRun s runId t output error = s := by
  unfold endRun
  rw [h]

/-- Witness instantiating `endRun_unknown_run_is_noop` on an empty
instance. -/
theorem endRun_unknown_run_is_noop_witness :
    endRun { activeRuns := [], activeSteps := [], buffer := [], sent := [] }
        "r1" 5 none none
      = { activeRuns := [], activeSteps := [], buffer := [], sent := [] } :=
  endRun_unknown_run_is_noop _ "r1" 5 none none rfl

/--
C10.  Whether the wrapped function returns or raises, after `XRay.step`
finishes the `stepId` it registered is gone from `activeSteps` — the
`finally` block deletes it on both paths, so the map afterwards is
exactly the original map with any `stepId` entry removed (and therefore
unchanged whenever `stepId` was fresh, as every `uuidv4()` is).
-/
theorem step_removes_stepId (s : State) (stepId : String)
    (stepType : XRStepType) (stepName : String) (config : Option StepConfig)
    (t1 t2 : ℕ) (fnResult : Except AppError τ)
    (captured : List XRDecisionEvent) :
    mapGet (step s stepId stepType stepName config t1 t2 fnResult captured).2.activeSteps
        stepId = none ∧
    (step s stepId stepType stepName config t1 t2 fnResult captured).2.activeSteps
      = mapDelete s.activeSteps stepId := by
  cases fnResult with
  | ok output =>
    refine ⟨?_, ?_⟩
    · simp [step, mapGet_mapDelete]
    · simp [step, mapDelete_mapSet]
  | error e =>
    refine ⟨?_, ?_⟩
    · simp [step, mapGet_mapDelete]
    · simp [step, mapDelete_mapSet]

end XRay
